import Mathlib

/-!
Verification development for the riptide-cli service lifecycle module
(riptide_cli/lifecycle.py).

The module renders one progress widget per service while an engine starts
or stops a project: it builds an ordered, name-keyed collection of widgets,
routes each `(service_name, status, finished)` event from the engine stream
to the matching widget, collects per-service failures in an append-only
error list, closes all widgets in reverse order on completion, and prints
an error summary.

The shallow embedding below mirrors the Python source:
  - `bound` is the text-bounding expression used (inlined, twice, with the
    identical formula) at lines 57 and 65 of the source; Python slicing
    with a possibly negative bound is modelled by `pySliceTo`, and
    `str.ljust` by `ljust`.
  - terminal width lookups (`text_width_right`, `text_width_error`) are
    ambient effects; they enter the model as the parameters `twR`/`twE`.
  - a tqdm bar is the record `Tqdm`; the external tqdm library is modelled
    at the interface the source uses: `update d` adds `d` to the counter
    `n`, assignments to `postfix[0]`, `total`, `bar_format` set record
    fields, `refresh`/`close`/`echo` become trace actions (`Act`).
  - the `OrderedDict` of bars is an insertion-ordered association list
    with `odGet` / `odInsert` / `odModify`.
  - Python exceptions (KeyError, AttributeError, ValueError, and a failing
    event stream) are the `Exn` type; fallible functions return `Except`.
    `RiptideCliError("...", ctx) from err` becomes `Outcome.opError msg err`.
  - the status payload delivered by the engine is `Status` (the tagged
    variant of the specification); `none` is the Python `None` payload.
-/

namespace Riptide

/-- The engine status payload: either an in-progress update carrying a
text, a current step and an optional step total, or a failure carrying a
message. An absent payload is `Option.none` at use sites. -/
inductive Status
| inProgress (text : List Char) (current_step : Int) (steps : Option Int)
| failure (message : List Char)
deriving DecidableEq

/-- One event of the engine stream: `(service_name, status, finished)`. -/
structure Event where
  service_name : String
  status : Option Status
  finished : Bool
deriving DecidableEq

/-- Python exceptions that the modelled code can raise, plus an abstract
failure of the event stream itself. -/
inductive Exn
| keyError
| attributeError
| valueError
| streamFailure (msg : List Char)
deriving DecidableEq

/-- One tqdm progress bar, at the interface the source uses: `total`,
`position`, the counter `n`, the description, `postfix[0]` (here `pfx0`)
and `bar_format`. -/
structure Tqdm where
  total : Int
  position : Nat
  n : Int
  desc : List Char
  pfx0 : List Char
  barFormat : List Char
deriving DecidableEq

/-- Observable display actions: echoed lines, blank lines, widget
refreshes and closes, and the styled parts of the error summary. -/
inductive Act
| echoLine (s : List Char)
| echoBlank
| refresh (service : String)
| closeBar (service : String)
| echoHeader
| echoService (service : String)
| echoError (status : Status)
deriving DecidableEq

/-- Whether an action closes a widget. -/
def Act.isClose : Act → Bool
| .closeBar _ => true
| _ => false

/-- Python `s.ljust(w)`: pad with trailing spaces up to width `w`
(a no-op when the string is already at least that long, or when `w` is
negative). -/
def ljust (s : List Char) (w : Int) : List Char :=
  s ++ List.replicate (w.toNat - s.length) ' '

/-- Python prefix slice `s[:k]` with an `Int` bound: a nonnegative bound
takes that many leading characters, a negative bound drops that many
trailing characters. -/
def pySliceTo (s : List Char) (k : Int) : List Char :=
  if 0 ≤ k then s.take k.toNat else s.take ((s.length : Int) + k).toNat

/-- The text-bounding expression of source lines 57 and 65 (identical in
both places): `(text[:w-3] + "...") if len(text) > w-3 else text.ljust(w)`. -/
def bound (text : List Char) (width : Int) : List Char :=
  if (text.length : Int) > width - 3 then pySliceTo text (width - 3) ++ ['.', '.', '.']
  else ljust text width

/-- The bar_format string passed to the tqdm constructor. -/
def fmt0 : List Char := "{desc}{n_fmt}/{total_fmt}|{bar}| \x7bpostfix[0]\x7d".toList

/-- `len(max(services, key=len))`: `none` on the empty sequence, where
Python `max` raises ValueError. -/
def longestLen : List String → Option Nat
| [] => none
| s :: rest => some (rest.foldl (fun m t => max m t.length) s.length)

/-- Membership test of the ordered dictionary of bars. -/
def hasKey (d : List (String × Tqdm)) (k : String) : Bool :=
  d.any (fun p => p.1 == k)

/-- Lookup `d[k]` in the ordered dictionary. -/
def odGet : List (String × Tqdm) → String → Option Tqdm
| [], _ => none
| p :: rest, k => if p.1 = k then some p.2 else odGet rest k

/-- Assignment `d[k] = v` on an OrderedDict: an existing key keeps its
slot, a new key is appended. -/
def odInsert (d : List (String × Tqdm)) (k : String) (v : Tqdm) : List (String × Tqdm) :=
  if hasKey d k then d.map (fun p => if p.1 = k then (p.1, v) else p) else d ++ [(k, v)]

/-- In-place mutation of the bar stored under `k`. -/
def odModify (d : List (String × Tqdm)) (k : String) (f : Tqdm → Tqdm) : List (String × Tqdm) :=
  d.map (fun p => if p.1 = k then (p.1, f p.2) else p)

/-- `tqdm(total=1, position=i, bar_format=..., postfix=["...".ljust(tw)])`. -/
def mkBar (tw : Int) (i : Nat) : Tqdm :=
  { total := 1, position := i, n := 0, desc := [],
    pfx0 := ljust ("...".toList) tw, barFormat := fmt0 }

/-- The construction loop of `_build_progress_bars`: for each name, insert
a fresh bar at position `i`, then `set_description(name.ljust(L))` on the
bar stored under that name. -/
def buildLoop (tw : Int) (L : Nat) : List (String × Tqdm) → Nat → List String → List (String × Tqdm)
| d, _, [] => d
| d, i, name :: rest =>
    buildLoop tw L
      (odModify (odInsert d name (mkBar tw i)) name
        (fun w => { w with desc := ljust name.toList L }))
      (i + 1) rest

/-- `_build_progress_bars(services)`: computes the longest name length
first (ValueError on an empty sequence), then builds one bar per name. -/
def _build_progress_bars (tw : Int) (services : List String) : Except Exn (List (String × Tqdm)) :=
  match longestLen services with
  | none => .error .valueError
  | some L => .ok (buildLoop tw L [] 0 services)

/-- The mutable state threaded through event handling: the bars, the
append-only error list (each record keeps the service name and the status
object the source appends), and the output trace. -/
structure HState where
  bars : List (String × Tqdm)
  errors : List (String × Status)
  out : List Act
deriving DecidableEq

/-- `_handle_progress_bar(service_name, status, finished, progress_bars,
errors)`. Mirrors the source branch for branch, including evaluation
order: in the failure branch the error record is appended before the bar
subscript (so a KeyError leaves the record behind), and accessing a
missing attribute of the payload raises AttributeError. -/
def _handle_progress_bar (twR twE : Int) (service_name : String) (status : Option Status)
    (finished : Bool) (st : HState) : Except (Exn × HState) HState :=
  if finished then
    match status with
    | some s =>
      let errors1 := st.errors ++ [(service_name, s)]
      match s with
      | .failure message =>
        let msg := bound message twE
        match odGet st.bars service_name with
        | none => .error (.keyError, { st with errors := errors1 })
        | some _ =>
          .ok { st with
                errors := errors1,
                bars := odModify st.bars service_name
                  (fun w => { w with barFormat := "{desc}".toList ++ msg }),
                out := st.out ++ [.refresh service_name] }
      | .inProgress _ _ _ => .error (.attributeError, { st with errors := errors1 })
    | none => .ok st
  else
    match status with
    | none => .error (.attributeError, st)
    | some (.failure _) => .error (.attributeError, st)
    | some (.inProgress text current_step steps) =>
      let text_for_status := bound text twR
      match odGet st.bars service_name with
      | none => .error (.keyError, st)
      | some w =>
        let w1 := { w with pfx0 := text_for_status }
        let w2 := match steps with
          | some k => if w1.total ≠ k then { w1 with total := k } else w1
          | none => w1
        let w3 := { w2 with n := w2.n + (current_step - w2.n) }
        .ok { st with
              bars := odModify st.bars service_name (fun _ => w3),
              out := st.out ++ [.refresh service_name] }

/-- The dispatcher loop body: apply `_handle_progress_bar` to each event
in order, stopping at the first raised exception. -/
def runEvents (twR twE : Int) (st : HState) : List Event → Except (Exn × HState) HState
| [] => .ok st
| e :: rest =>
  match _handle_progress_bar twR twE e.service_name e.status e.finished st with
  | .error x => .error x
  | .ok st1 => runEvents twR twE st1 rest

/-- The teardown loop: `for bar in reversed(progress_bars.values()):
bar.close(); echo()`. -/
def closeAllTrace (bars : List (String × Tqdm)) : List Act :=
  bars.reverse.flatMap (fun p => [.closeBar p.1, .echoBlank])

/-- `_display_errors(errors)`: nothing when empty, otherwise a header then
service line, error line and blank line per record, in arrival order. -/
def _display_errors (errors : List (String × Status)) : List Act :=
  if errors.length > 0 then
    Act.echoHeader :: errors.flatMap (fun r => [.echoService r.1, .echoError r.2, .echoBlank])
  else []

/-- Result of one lifecycle operation: an unwrapped build exception, a
RiptideCliError wrapping the cause `cause` with context message `message`
(the state at the raise is kept for observation), or normal completion
with the final state and the full output trace. -/
inductive Outcome
| buildError (e : Exn) (out : List Act)
| opError (message : List Char) (cause : Exn) (st : HState)
| done (st : HState) (out : List Act)
deriving DecidableEq

/-- The common shape of `start_project` and `stop_project` after project
and engine are resolved: echo the banner, build the bars (a build
exception propagates unwrapped), consume the event stream — modelled as
the delivered events followed by an optional exception of the stream
itself — wrapping any exception into `opError ctxMsg`, then close all
bars in reverse order and display the error summary. -/
def runLifecycle (banner ctxMsg : List Char) (twR twE : Int) (services : List String)
    (events : List Event) (streamErr : Option Exn) : Outcome :=
  let out0 : List Act := [.echoLine banner, .echoBlank]
  match _build_progress_bars twR services with
  | .error e => .buildError e out0
  | .ok bars =>
    match runEvents twR twE ⟨bars, [], out0⟩ events with
    | .error (e, st) => .opError ctxMsg e st
    | .ok st =>
      match streamErr with
      | some e => .opError ctxMsg e st
      | none => .done st (st.out ++ closeAllTrace st.bars ++ _display_errors st.errors)

/-- The banner echoed by `start_project`. -/
def startBanner : List Char := "Starting services...".toList

/-- The banner echoed by `stop_project`. -/
def stopBanner : List Char := "Stopping services...".toList

/-- The context message of the RiptideCliError raised by `start_project`. -/
def startErrMsg : List Char := "Error starting the services".toList

/-- The context message of the RiptideCliError raised by `stop_project`. -/
def stopErrMsg : List Char := "Error stopping the services".toList

/-- `start_project` with an explicit service list (the `services is None`
default and the trailing status report are outside the modelled core). -/
def start_project (twR twE : Int) (services : List String) (events : List Event)
    (streamErr : Option Exn) : Outcome :=
  runLifecycle startBanner startErrMsg twR twE services events streamErr

/-- `stop_project` with an explicit service list. -/
def stop_project (twR twE : Int) (services : List String) (events : List Event)
    (streamErr : Option Exn) : Outcome :=
  runLifecycle stopBanner stopErrMsg twR twE services events streamErr

end Riptide

namespace Riptide

/-- The bar stored for `name` when it was inserted at position `i` with
longest-name length `L`: the fields of `mkBar` with the description set. -/
def builtRow (tw : Int) (L : Nat) (i : Nat) (name : String) : String × Tqdm :=
  (name, { total := 1, position := i, n := 0, desc := ljust name.toList L,
           pfx0 := ljust ("...".toList) tw, barFormat := fmt0 })

/-- The rows produced by the build loop for a duplicate-free name list,
starting at position `i`. -/
def builtRows (tw : Int) (L : Nat) : Nat → List String → List (String × Tqdm)
| _, [] => []
| i, name :: rest => builtRow tw L i name :: builtRows tw L (i + 1) rest

lemma odGet_odModify (d : List (String × Tqdm)) (k : String) (f : Tqdm → Tqdm) :
    odGet (odModify d k f) k = (odGet d k).map f := by
  induction d with
  | nil => rfl
  | cons p rest ih =>
    by_cases h : p.1 = k
    · simp [odModify, odGet, h]
    · simp [odModify, odGet, h] at ih ⊢
      exact ih

lemma hasKey_append (d d2 : List (String × Tqdm)) (k : String) :
    hasKey (d ++ d2) k = (hasKey d k || hasKey d2 k) := by
  simp [hasKey, List.any_append]

lemma odInsert_of_not_hasKey (d : List (String × Tqdm)) (k : String) (v : Tqdm)
    (h : hasKey d k = false) : odInsert d k v = d ++ [(k, v)] := by
  simp [odInsert, h]

lemma odModify_of_not_hasKey (d : List (String × Tqdm)) (k : String) (f : Tqdm → Tqdm)
    (h : hasKey d k = false) : odModify d k f = d := by
  induction d with
  | nil => rfl
  | cons p rest ih =>
    simp [hasKey] at h
    simp [odModify] at ih ⊢
    refine ⟨fun hk => absurd hk h.1, ih ?_⟩
    simp [hasKey]
    exact h.2

lemma odModify_append (d d2 : List (String × Tqdm)) (k : String) (f : Tqdm → Tqdm) :
    odModify (d ++ d2) k f = odModify d k f ++ odModify d2 k f := by
  simp [odModify]

lemma odModify_append_singleton (d : List (String × Tqdm)) (k : String) (v : Tqdm)
    (f : Tqdm → Tqdm) (h : hasKey d k = false) :
    odModify (d ++ [(k, v)]) k f = d ++ [(k, f v)] := by
  rw [odModify_append, odModify_of_not_hasKey d k f h]
  simp [odModify]

end Riptide

namespace Riptide

lemma hasKey_append_singleton_false (d : List (String × Tqdm)) (name s : String) (v : Tqdm)
    (hd : hasKey d s = false) (hne : name ≠ s) : hasKey (d ++ [(name, v)]) s = false := by
  rw [hasKey_append, hd]
  simp [hasKey]
  exact hne

lemma buildLoop_eq (tw : Int) (L : Nat) :
    ∀ (services : List String) (d : List (String × Tqdm)) (i : Nat),
      services.Nodup → (∀ s ∈ services, hasKey d s = false) →
      buildLoop tw L d i services = d ++ builtRows tw L i services := by
  intro services
  induction services with
  | nil => intro d i _ _; simp [buildLoop, builtRows]
  | cons name rest ih =>
    intro d i hnd hkeys
    have hname : hasKey d name = false := hkeys name (by simp)
    have hstep : odModify (odInsert d name (mkBar tw i)) name
        (fun w => { w with desc := ljust name.toList L }) = d ++ [builtRow tw L i name] := by
      rw [odInsert_of_not_hasKey d name _ hname,
          odModify_append_singleton d name _ _ hname]
      rfl
    rw [buildLoop, hstep, ih (d ++ [builtRow tw L i name]) (i + 1) (List.Nodup.of_cons hnd) ?keys]
    · simp [builtRows]
    case keys =>
      intro s hs
      refine hasKey_append_singleton_false d name s _ (hkeys s (by simp [hs])) ?_
      intro heq
      rw [heq] at hnd
      exact (List.nodup_cons.mp hnd).1 hs

lemma builtRows_map_fst (tw : Int) (L : Nat) :
    ∀ (services : List String) (i : Nat),
      (builtRows tw L i services).map Prod.fst = services := by
  intro services
  induction services with
  | nil => intro i; rfl
  | cons name rest ih => intro i; simp [builtRows, builtRow, ih]

lemma builtRows_get (tw : Int) (L : Nat) :
    ∀ (services : List String) (i j : Nat) (name : String),
      services.Nodup → services.get? j = some name →
      odGet (builtRows tw L i services) name = some (builtRow tw L (i + j) name).2 := by
  intro services
  induction services with
  | nil => intro i j name _ h; simp at h
  | cons hd rest ih =>
    intro i j name hnd hj
    match j with
    | 0 =>
      simp at hj
      subst hj
      simp [builtRows, builtRow, odGet]
    | Nat.succ j1 =>
      rw [List.get?_cons_succ] at hj
      have hmem : name ∈ rest := List.get?_mem hj
      have hne : hd ≠ name := by
        intro heq
        rw [heq] at hnd
        exact (List.nodup_cons.mp hnd).1 hmem
      simp [builtRows, builtRow, odGet, hne]
      have := ih (i + 1) j1 name (List.Nodup.of_cons hnd) hj
      simpa [builtRow, Nat.add_assoc, Nat.add_comm 1 j1] using this

end Riptide

namespace Riptide

/-- The names occurring in close actions of a trace, in trace order. -/
def closedNames (tr : List Act) : List String :=
  tr.filterMap (fun a => match a with | .closeBar s => some s | _ => none)

lemma closedNames_pairs (l : List String) :
    closedNames (l.flatMap (fun s => [Act.closeBar s, Act.echoBlank])) = l := by
  induction l with
  | nil => rfl
  | cons hd rest ih => simp [closedNames] at ih ⊢; exact ih

lemma closeAllTrace_eq (bars : List (String × Tqdm)) :
    closeAllTrace bars
      = (bars.map Prod.fst).reverse.flatMap (fun s => [Act.closeBar s, Act.echoBlank]) := by
  simp [closeAllTrace, ← List.map_reverse, List.flatMap_map]

lemma longestLen_cons (s : String) (rest : List String) :
    ∃ L, longestLen (s :: rest) = some L := ⟨_, rfl⟩

end Riptide

namespace Riptide

lemma handle_inProgress_eq (twR twE : Int) (name : String) (t : List Char) (c : Int)
    (s : Option Int) (st : HState) (w : Tqdm) (h : odGet st.bars name = some w) :
    ∃ w3 : Tqdm,
      _handle_progress_bar twR twE name (some (.inProgress t c s)) false st
        = .ok { st with bars := odModify st.bars name (fun _ => w3),
                        out := st.out ++ [.refresh name] }
      ∧ w3.pfx0 = bound t twR ∧ w3.n = c
      ∧ w3.total = s.getD w.total
      ∧ w3.position = w.position ∧ w3.desc = w.desc ∧ w3.barFormat = w.barFormat := by
  match s with
  | none =>
    refine ⟨{ w with pfx0 := bound t twR, n := w.n + (c - w.n) }, ?_, ?_, ?_, ?_, ?_, ?_, ?_⟩
      <;> simp [_handle_progress_bar, h]
  | some k =>
    by_cases hk : w.total = k
    · refine ⟨{ w with pfx0 := bound t twR, n := w.n + (c - w.n) }, ?_, ?_, ?_, ?_, ?_, ?_, ?_⟩
        <;> simp [_handle_progress_bar, h, hk]
    · refine ⟨{ w with pfx0 := bound t twR, total := k, n := w.n + (c - w.n) }, ?_, ?_, ?_, ?_, ?_, ?_, ?_⟩
        <;> simp [_handle_progress_bar, h, hk]

lemma handle_failure_eq (twR twE : Int) (name : String) (m : List Char)
    (st : HState) (w : Tqdm) (h : odGet st.bars name = some w) :
    _handle_progress_bar twR twE name (some (.failure m)) true st
      = .ok { st with
              errors := st.errors ++ [(name, .failure m)],
              bars := odModify st.bars name
                (fun w1 => { w1 with barFormat := "{desc}".toList ++ bound m twE }),
              out := st.out ++ [.refresh name] } := by
  simp [_handle_progress_bar, h]

lemma handle_finished_none_eq (twR twE : Int) (name : String) (st : HState) :
    _handle_progress_bar twR twE name none true st = .ok st := by
  simp [_handle_progress_bar]

end Riptide

namespace Riptide

lemma handle_ok_noClose (twR twE : Int) (name : String) (status : Option Status)
    (finished : Bool) (st st1 : HState)
    (hok : _handle_progress_bar twR twE name status finished st = .ok st1)
    (hnc : ∀ a ∈ st.out, a.isClose = false) :
    ∀ a ∈ st1.out, a.isClose = false := by
  cases finished with
  | false =>
    match status with
    | none => simp [_handle_progress_bar] at hok
    | some (.failure m) => simp [_handle_progress_bar] at hok
    | some (.inProgress t c s) =>
      cases hget : odGet st.bars name with
      | none => simp [_handle_progress_bar, hget] at hok
      | some w =>
        obtain ⟨w3, heq, -⟩ := handle_inProgress_eq twR twE name t c s st w hget
        rw [heq] at hok
        have hst : st1 = { st with bars := odModify st.bars name (fun _ => w3),
                                   out := st.out ++ [.refresh name] } :=
          (Except.ok.injEq _ _ ▸ hok).symm
        subst hst
        intro a ha
        rcases List.mem_append.mp ha with hin | hin
        · exact hnc a hin
        · simp at hin
          rw [hin]
          rfl
  | true =>
    match status with
    | none =>
      rw [handle_finished_none_eq] at hok
      have hst : st1 = st := (Except.ok.injEq _ _ ▸ hok).symm
      subst hst
      exact hnc
    | some (.inProgress t c s) => simp [_handle_progress_bar] at hok
    | some (.failure m) =>
      cases hget : odGet st.bars name with
      | none => simp [_handle_progress_bar, hget] at hok
      | some w =>
        rw [handle_failure_eq twR twE name m st w hget] at hok
        have hst : st1 = { st with
            errors := st.errors ++ [(name, .failure m)],
            bars := odModify st.bars name
              (fun w1 => { w1 with barFormat := "{desc}".toList ++ bound m twE }),
            out := st.out ++ [.refresh name] } :=
          (Except.ok.injEq _ _ ▸ hok).symm
        subst hst
        intro a ha
        rcases List.mem_append.mp ha with hin | hin
        · exact hnc a hin
        · simp at hin
          rw [hin]
          rfl

lemma runEvents_noClose (twR twE : Int) :
    ∀ (events : List Event) (st st1 : HState),
      runEvents twR twE st events = .ok st1 →
      (∀ a ∈ st.out, a.isClose = false) →
      ∀ a ∈ st1.out, a.isClose = false := by
  intro events
  induction events with
  | nil =>
    intro st st1 hr hnc
    simp [runEvents] at hr
    rw [← hr]
    exact hnc
  | cons e rest ih =>
    intro st st1 hr hnc
    simp only [runEvents] at hr
    cases hh : _handle_progress_bar twR twE e.service_name e.status e.finished st with
    | error x => rw [hh] at hr; simp at hr
    | ok st2 =>
      rw [hh] at hr
      simp at hr
      exact ih st2 st1 hr (handle_ok_noClose twR twE e.service_name e.status e.finished st st2 hh hnc)

end Riptide

namespace Riptide

/-- Claim C1, counterexample: the claim states that for EVERY integer
width the result has length exactly width, but for widths below 3 the
Python expression misbehaves: at width 0 the empty text satisfies
len(text) > width - 3 and the result is the bare ellipsis of length 3,
and at width 2 the slice bound width - 3 = -1 is a Python
count-from-the-end index, so a four-character text yields six characters. -/
theorem bound_width_counterexample :
    (bound [] 0).length = 3
    ∧ ((bound [] 0).length : Int) ≠ (0 : Int)
    ∧ bound ['a', 'b', 'c', 'd'] 2 = ['a', 'b', 'c', '.', '.', '.'] := by
  refine ⟨rfl, by decide, rfl⟩

/-- Claim C1, amended: for every text and every width that is at least 3,
the text-bounding expression of source lines 57 and 65 returns a string
of length exactly width; it is the first width - 3 characters followed by
the three-character ellipsis when the text is longer than width - 3, and
otherwise the text right-padded with spaces to exactly width characters. -/
theorem bound_spec_amended (text : List Char) (width : Int) (h : 3 ≤ width) :
    ((bound text width).length : Int) = width
    ∧ ((text.length : Int) > width - 3 →
        bound text width = text.take (width - 3).toNat ++ ['.', '.', '.'])
    ∧ ((text.length : Int) ≤ width - 3 →
        bound text width = text ++ List.replicate (width.toNat - text.length) ' ') := by
  have h0 : (0 : Int) ≤ width - 3 := by omega
  refine ⟨?_, ?_, ?_⟩
  · by_cases hgt : (text.length : Int) > width - 3
    · rw [bound, if_pos hgt, pySliceTo, if_pos h0]
      simp only [List.length_append, List.length_take, List.length_cons, List.length_nil]
      push_cast
      omega
    · rw [bound, if_neg hgt, ljust]
      simp only [List.length_append, List.length_replicate]
      push_cast
      omega
  · intro hgt
    rw [bound, if_pos hgt, pySliceTo, if_pos h0]
  · intro hle
    rw [bound, if_neg (by omega), ljust]

/-- Claim C1, witness of the amended theorem at the two examples of the
specification: width 10 with a 23-character and a 2-character text. -/
theorem bound_spec_amended_witness :
    (((bound ("Installing dependencies".toList) 10).length : Int) = 10
      ∧ ((("Installing dependencies".toList).length : Int) > 10 - 3 →
          bound ("Installing dependencies".toList) 10
            = ("Installing dependencies".toList).take ((10 : Int) - 3).toNat ++ ['.', '.', '.'])
      ∧ ((("Installing dependencies".toList).length : Int) ≤ 10 - 3 →
          bound ("Installing dependencies".toList) 10
            = "Installing dependencies".toList
              ++ List.replicate ((10 : Int).toNat - ("Installing dependencies".toList).length) ' '))
    ∧ (((bound ("ok".toList) 10).length : Int) = 10
      ∧ ((("ok".toList).length : Int) > 10 - 3 →
          bound ("ok".toList) 10 = ("ok".toList).take ((10 : Int) - 3).toNat ++ ['.', '.', '.'])
      ∧ ((("ok".toList).length : Int) ≤ 10 - 3 →
          bound ("ok".toList) 10
            = "ok".toList ++ List.replicate ((10 : Int).toNat - ("ok".toList).length) ' ')) :=
  ⟨bound_spec_amended ("Installing dependencies".toList) 10 (by decide),
   bound_spec_amended ("ok".toList) 10 (by decide)⟩

end Riptide

namespace Riptide

/-- Claim C2: for every non-finished event carrying an in-progress payload
for a registered service, the handler succeeds; afterwards the widget
footer (postfix[0]) is the payload text bounded under the Right-budget,
the error list is untouched, the total equals the payload steps exactly
when steps is present (and is untouched when absent or equal), and the
counter was advanced by the delta payload.current_step - widget.n, so it
now equals the payload current_step. -/
theorem inProgress_event_updates_widget (twR twE : Int) (name : String) (t : List Char)
    (c : Int) (s : Option Int) (st : HState) (w : Tqdm)
    (h : odGet st.bars name = some w) :
    ∃ st1 w1,
      _handle_progress_bar twR twE name (some (.inProgress t c s)) false st = .ok st1
      ∧ odGet st1.bars name = some w1
      ∧ st1.errors = st.errors
      ∧ w1.pfx0 = bound t twR
      ∧ (s = none → w1.total = w.total)
      ∧ (∀ k, s = some k → w1.total = k)
      ∧ w1.n = w.n + (c - w.n)
      ∧ w1.n = c := by
  obtain ⟨w3, heq, hp, hn, htot, -, -, -⟩ := handle_inProgress_eq twR twE name t c s st w h
  refine ⟨_, w3, heq, ?_, rfl, hp, ?_, ?_, ?_, hn⟩
  · simp only [heq]
    rw [odGet_odModify, h]
    rfl
  · intro hs
    rw [htot, hs]
    rfl
  · intro k hs
    rw [htot, hs]
    rfl
  · omega

/-- Claim C2, witness: the first event of the specification example, for
service web with text starting, current_step 3, steps 3, on a fresh
one-service board. -/
theorem inProgress_event_updates_widget_witness :
    ∃ st1 w1,
      _handle_progress_bar 45 45 "web" (some (.inProgress ("starting".toList) 3 (some 3))) false
          ⟨[("web", ⟨1, 0, 0, [], [], fmt0⟩)], [], []⟩ = .ok st1
      ∧ odGet st1.bars "web" = some w1
      ∧ st1.errors = HState.errors ⟨[("web", ⟨1, 0, 0, [], [], fmt0⟩)], [], []⟩
      ∧ w1.pfx0 = bound ("starting".toList) 45
      ∧ ((some 3 : Option Int) = none → w1.total = Tqdm.total ⟨1, 0, 0, [], [], fmt0⟩)
      ∧ (∀ k, (some 3 : Option Int) = some k → w1.total = k)
      ∧ w1.n = Tqdm.n ⟨1, 0, 0, [], [], fmt0⟩ + (3 - Tqdm.n ⟨1, 0, 0, [], [], fmt0⟩)
      ∧ w1.n = 3 :=
  inProgress_event_updates_widget 45 45 "web" ("starting".toList) 3 (some 3)
    ⟨[("web", ⟨1, 0, 0, [], [], fmt0⟩)], [], []⟩ ⟨1, 0, 0, [], [], fmt0⟩ (by decide)

/-- Claim C4: for every finished event with a failure payload for a
registered service, the handler succeeds (the batch continues): exactly
one record pairing the service name with the failure payload (whose
message field is the failure message) is appended to the error list, and
the widget line is rewritten to the description plus the message bounded
under the Error-budget twE, not the Right-budget. -/
theorem failure_event_records_error (twR twE : Int) (name : String) (m : List Char)
    (st : HState) (w : Tqdm) (h : odGet st.bars name = some w) :
    ∃ st1 w1,
      _handle_progress_bar twR twE name (some (.failure m)) true st = .ok st1
      ∧ st1.errors = st.errors ++ [(name, .failure m)]
      ∧ odGet st1.bars name = some w1
      ∧ w1.barFormat = "{desc}".toList ++ bound m twE := by
  refine ⟨_, { w with barFormat := "{desc}".toList ++ bound m twE },
    handle_failure_eq twR twE name m st w h, rfl, ?_, rfl⟩
  simp only
  rw [odGet_odModify, h]
  rfl

/-- Claim C4, witness at the example of the specification: processing the
single event (db, Failure connection refused, finished) on a fresh board
leaves the aggregator holding exactly that one record. -/
theorem failure_event_records_error_witness :
    ∃ st1 w1,
      _handle_progress_bar 45 45 "db" (some (.failure ("connection refused".toList))) true
          ⟨[("db", ⟨1, 0, 0, [], [], fmt0⟩)], [], []⟩ = .ok st1
      ∧ st1.errors = HState.errors ⟨[("db", ⟨1, 0, 0, [], [], fmt0⟩)], [], []⟩
          ++ [("db", .failure ("connection refused".toList))]
      ∧ odGet st1.bars "db" = some w1
      ∧ w1.barFormat = "{desc}".toList ++ bound ("connection refused".toList) 45 :=
  failure_event_records_error 45 45 "db" ("connection refused".toList)
    ⟨[("db", ⟨1, 0, 0, [], [], fmt0⟩)], [], []⟩ ⟨1, 0, 0, [], [], fmt0⟩ (by decide)

end Riptide

namespace Riptide

/-- Claim C3, evaluation at the failing input: building a board over the
empty service sequence raises the ValueError of Python max over an empty
sequence — there is no explicit emptiness check and no ConfigurationError;
the longest-name computation is exactly what fails. No widget is created
and no output is produced by the builder itself, and the error leaves
start_project and stop_project unwrapped (the build is outside their
try block). -/
theorem build_empty_raises_valueError (twR twE : Int) (events : List Event)
    (serr : Option Exn) :
    _build_progress_bars twR [] = .error .valueError
    ∧ start_project twR twE [] events serr
        = .buildError .valueError [.echoLine startBanner, .echoBlank]
    ∧ stop_project twR twE [] events serr
        = .buildError .valueError [.echoLine stopBanner, .echoBlank] :=
  ⟨rfl, rfl, rfl⟩

/-- Claim C5: when the event stream itself raises after delivering events
that were all handled without exception, both start_project and
stop_project abort with the wrapping operation error: it carries the
human-readable context message and the underlying stream exception as its
cause, it is the value returned to the caller (never recovered locally),
and the trace produced up to the abort contains no widget close action. -/
theorem stream_failure_wraps_and_propagates (twR twE : Int) (services : List String)
    (events : List Event) (e : Exn) (bars : List (String × Tqdm)) (st1 st2 : HState)
    (hb : _build_progress_bars twR services = .ok bars)
    (hr1 : runEvents twR twE ⟨bars, [], [.echoLine startBanner, .echoBlank]⟩ events = .ok st1)
    (hr2 : runEvents twR twE ⟨bars, [], [.echoLine stopBanner, .echoBlank]⟩ events = .ok st2) :
    start_project twR twE services events (some e) = .opError startErrMsg e st1
    ∧ stop_project twR twE services events (some e) = .opError stopErrMsg e st2
    ∧ (∀ a ∈ st1.out, a.isClose = false)
    ∧ (∀ a ∈ st2.out, a.isClose = false) := by
  have hinit : ∀ (b : List Char), ∀ a ∈ [Act.echoLine b, Act.echoBlank], a.isClose = false := by
    intro b a ha
    simp at ha
    rcases ha with rfl | rfl <;> rfl
  refine ⟨?_, ?_, ?_, ?_⟩
  · simp [start_project, runLifecycle, hb, hr1]
  · simp [stop_project, runLifecycle, hb, hr2]
  · exact runEvents_noClose twR twE events _ st1 hr1 (hinit startBanner)
  · exact runEvents_noClose twR twE events _ st2 hr2 (hinit stopBanner)

/-- Claim C5, witness: a one-service project whose stream delivers no
event and then fails. -/
theorem stream_failure_wraps_and_propagates_witness :
    start_project 0 0 ["a"] [] (some (.streamFailure ['b']))
      = .opError startErrMsg (.streamFailure ['b'])
          ⟨[("a", ⟨1, 0, 0, ['a'], ['.', '.', '.'], fmt0⟩)], [], [.echoLine startBanner, .echoBlank]⟩
    ∧ stop_project 0 0 ["a"] [] (some (.streamFailure ['b']))
      = .opError stopErrMsg (.streamFailure ['b'])
          ⟨[("a", ⟨1, 0, 0, ['a'], ['.', '.', '.'], fmt0⟩)], [], [.echoLine stopBanner, .echoBlank]⟩
    ∧ (∀ a ∈ HState.out ⟨[("a", ⟨1, 0, 0, ['a'], ['.', '.', '.'], fmt0⟩)], [],
          [.echoLine startBanner, .echoBlank]⟩, a.isClose = false)
    ∧ (∀ a ∈ HState.out ⟨[("a", ⟨1, 0, 0, ['a'], ['.', '.', '.'], fmt0⟩)], [],
          [.echoLine stopBanner, .echoBlank]⟩, a.isClose = false) :=
  stream_failure_wraps_and_propagates 0 0 ["a"] [] (.streamFailure ['b'])
    [("a", ⟨1, 0, 0, ['a'], ['.', '.', '.'], fmt0⟩)]
    ⟨[("a", ⟨1, 0, 0, ['a'], ['.', '.', '.'], fmt0⟩)], [], [.echoLine startBanner, .echoBlank]⟩
    ⟨[("a", ⟨1, 0, 0, ['a'], ['.', '.', '.'], fmt0⟩)], [], [.echoLine stopBanner, .echoBlank]⟩
    rfl rfl rfl

end Riptide

namespace Riptide

/-- Claim C6: for every non-empty duplicate-free ordered service-name
sequence (the data model requires names unique within one operation), the
build succeeds, the widgets appear in exactly the input order with
position equal to the index of the name, and the teardown trace closes
the widgets in strict reverse insertion order, one close action per
widget followed by one blank line. -/
theorem board_order_and_reverse_teardown (tw : Int) (services : List String)
    (h1 : services ≠ []) (h2 : services.Nodup) :
    ∃ bars, _build_progress_bars tw services = .ok bars
      ∧ bars.map Prod.fst = services
      ∧ (∀ i name, services.get? i = some name →
          ∃ w, odGet bars name = some w ∧ w.position = i)
      ∧ closeAllTrace bars
          = services.reverse.flatMap (fun s => [Act.closeBar s, Act.echoBlank])
      ∧ closedNames (closeAllTrace bars) = services.reverse := by
  match services, h1 with
  | name0 :: rest, _ =>
    obtain ⟨L, hL⟩ := longestLen_cons name0 rest
    have hfst := builtRows_map_fst tw L (name0 :: rest) 0
    have hclose : closeAllTrace (builtRows tw L 0 (name0 :: rest))
        = (name0 :: rest).reverse.flatMap (fun s => [Act.closeBar s, Act.echoBlank]) := by
      rw [closeAllTrace_eq, hfst]
    refine ⟨builtRows tw L 0 (name0 :: rest), ?_, hfst, ?_, hclose, ?_⟩
    · simp [_build_progress_bars, hL]
      have := buildLoop_eq tw L (name0 :: rest) [] 0 h2 (fun s _ => rfl)
      simpa using this
    · intro i name hi
      refine ⟨(builtRow tw L (0 + i) name).2, builtRows_get tw L (name0 :: rest) 0 i name h2 hi, ?_⟩
      simp [builtRow]
    · rw [hclose, closedNames_pairs]

/-- Claim C6, witness: a two-service board. -/
theorem board_order_and_reverse_teardown_witness :
    ∃ bars, _build_progress_bars 45 ["web", "db"] = .ok bars
      ∧ bars.map Prod.fst = ["web", "db"]
      ∧ (∀ i name, (["web", "db"] : List String).get? i = some name →
          ∃ w, odGet bars name = some w ∧ w.position = i)
      ∧ closeAllTrace bars
          = (["web", "db"] : List String).reverse.flatMap
              (fun s => [Act.closeBar s, Act.echoBlank])
      ∧ closedNames (closeAllTrace bars) = (["web", "db"] : List String).reverse :=
  board_order_and_reverse_teardown 45 ["web", "db"] (by decide) (by decide)

/-- Claim C7, the initialization of the claim formalised from the words
of the specification: description is the service name LEFT-padded (spaces
in front) to the longest name length. The code uses ljust, which pads on
the right. -/
def specC7_description (name : String) (L : Nat) : List Char :=
  List.replicate (L - name.toList.length) ' ' ++ name.toList

/-- Claim C7, counterexample: on the board built over [a, bb] the widget
of service a has description "a " — the name RIGHT-padded with a trailing
space, not the left-padded form the claim states — and its total is the
concrete value 1, not an unknown total: tqdm is constructed with
total=1. -/
theorem widget_init_counterexample :
    (match _build_progress_bars 45 ["a", "bb"] with
      | .ok bars => (odGet bars "a").map (fun w => (w.desc, w.total))
      | .error _ => none)
      = some (['a', ' '], 1)
    ∧ ['a', ' '] ≠ specC7_description "a" 2 := by
  refine ⟨rfl, by decide⟩

/-- Claim C7, amended: at construction every widget of a duplicate-free
sequence has position equal to the index of its name, total initialized
to the concrete placeholder 1 (not an unknown), counter 0, description
equal to the name RIGHT-padded with spaces to the longest name length,
and footer equal to the three-dot placeholder right-padded to the
Right-budget width — which coincides with the bounded placeholder
bound("...", tw) whenever the Right-budget is at least 6 (both the 45
fallback and any realistic terminal satisfy this). -/
theorem widget_init_amended (tw : Int) (services : List String) (h2 : services.Nodup)
    (L : Nat) (hL : longestLen services = some L) (i : Nat) (name : String)
    (hi : services.get? i = some name) :
    ∃ bars w, _build_progress_bars tw services = .ok bars
      ∧ odGet bars name = some w
      ∧ w.position = i ∧ w.total = 1 ∧ w.n = 0
      ∧ w.desc = name.toList ++ List.replicate (L - name.toList.length) ' '
      ∧ w.pfx0 = "...".toList ++ List.replicate (tw.toNat - 3) ' '
      ∧ (6 ≤ tw → w.pfx0 = bound ("...".toList) tw) := by
  match services, hi with
  | name0 :: rest, hi =>
    have hL2 : longestLen (name0 :: rest) = some L := hL
    refine ⟨builtRows tw L 0 (name0 :: rest), (builtRow tw L (0 + i) name).2, ?_, ?_, ?_⟩
    · simp [_build_progress_bars, hL2]
      have := buildLoop_eq tw L (name0 :: rest) [] 0 h2 (fun s _ => rfl)
      simpa using this
    · exact builtRows_get tw L (name0 :: rest) 0 i name h2 hi
    · refine ⟨by simp [builtRow], rfl, rfl, rfl, rfl, ?_⟩
      intro h6
      have hlen : (("...".toList).length : Int) = 3 := by decide
      rw [bound, if_neg (by rw [hlen]; omega)]
      rfl

/-- Claim C7, witness of the amended theorem: service bb at index 1 of
the sequence [a, bb], with Right-budget 45. -/
theorem widget_init_amended_witness :
    ∃ bars w, _build_progress_bars 45 ["a", "bb"] = .ok bars
      ∧ odGet bars "bb" = some w
      ∧ w.position = 1 ∧ w.total = 1 ∧ w.n = 0
      ∧ w.desc = "bb".toList ++ List.replicate (2 - ("bb".toList).length) ' '
      ∧ w.pfx0 = "...".toList ++ List.replicate ((45 : Int).toNat - 3) ' '
      ∧ (6 ≤ (45 : Int) → w.pfx0 = bound ("...".toList) 45) :=
  widget_init_amended 45 ["a", "bb"] (by decide) 2 rfl 1 "bb" rfl

end Riptide

namespace Riptide

/-- Claim C8, counterexample: the counter is applied as a delta to the
last known value, but nothing prevents regression — after an in-progress
event with current_step 3, a second event with current_step 1 drives the
widget counter from 3 down to 1, so the counter does regress when the
payload values regress. -/
theorem current_step_regression_counterexample :
    _handle_progress_bar 0 0 "db" (some (.inProgress [] 3 none)) false
        ⟨[("db", ⟨1, 0, 0, [], [], fmt0⟩)], [], []⟩
      = .ok ⟨[("db", ⟨1, 0, 3, [], ['.', '.', '.'], fmt0⟩)], [], [.refresh "db"]⟩
    ∧ _handle_progress_bar 0 0 "db" (some (.inProgress [] 1 none)) false
        ⟨[("db", ⟨1, 0, 3, [], ['.', '.', '.'], fmt0⟩)], [], [.refresh "db"]⟩
      = .ok ⟨[("db", ⟨1, 0, 1, [], ['.', '.', '.'], fmt0⟩)], [],
          [.refresh "db", .refresh "db"]⟩
    ∧ ¬ ((1 : Int) ≥ 3) :=
  ⟨rfl, rfl, by decide⟩

/-- Claim C8, amended: each in-progress update is applied as a delta from
the last known widget value, so afterwards the counter equals the payload
current_step; consequently the counter does not regress exactly when the
payload current_step is at least the widget value, which the engine
protocol provides but the code does not enforce. -/
theorem current_step_delta_amended (twR twE : Int) (name : String) (t : List Char)
    (c : Int) (s : Option Int) (st : HState) (w : Tqdm)
    (h : odGet st.bars name = some w) (hmono : w.n ≤ c) :
    ∃ st1 w1,
      _handle_progress_bar twR twE name (some (.inProgress t c s)) false st = .ok st1
      ∧ odGet st1.bars name = some w1
      ∧ w1.n = w.n + (c - w.n)
      ∧ w1.n = c
      ∧ w.n ≤ w1.n := by
  obtain ⟨w3, heq, -, hn, -⟩ := handle_inProgress_eq twR twE name t c s st w h
  refine ⟨_, w3, heq, ?_, ?_, hn, ?_⟩
  · simp only [heq]
    rw [odGet_odModify, h]
    rfl
  · omega
  · omega

/-- Claim C8, witness of the amended theorem: an update from counter 0 to
current_step 3. -/
theorem current_step_delta_amended_witness :
    ∃ st1 w1,
      _handle_progress_bar 45 45 "db" (some (.inProgress [] 3 none)) false
          ⟨[("db", ⟨1, 0, 0, [], [], fmt0⟩)], [], []⟩ = .ok st1
      ∧ odGet st1.bars "db" = some w1
      ∧ w1.n = Tqdm.n ⟨1, 0, 0, [], [], fmt0⟩ + (3 - Tqdm.n ⟨1, 0, 0, [], [], fmt0⟩)
      ∧ w1.n = 3
      ∧ Tqdm.n ⟨1, 0, 0, [], [], fmt0⟩ ≤ w1.n :=
  current_step_delta_amended 45 45 "db" [] 3 none
    ⟨[("db", ⟨1, 0, 0, [], [], fmt0⟩)], [], []⟩ ⟨1, 0, 0, [], [], fmt0⟩
    (by decide) (by decide)

/-- Claim C9, counterexample: the code keeps no terminal state, so an
event arriving after a widget already received its terminal failure event
is NOT ignored: a second finished failure event for db appends a second
record to the error list, changing it. (No exception is raised, so the
batch does continue.) -/
theorem terminal_events_counterexample :
    _handle_progress_bar 0 0 "db" (some (.failure ['x'])) true
        ⟨[("db", ⟨1, 0, 0, [], [], fmt0⟩)], [], []⟩
      = .ok ⟨[("db", ⟨1, 0, 0, [], [], "{desc}...".toList⟩)],
          [("db", .failure ['x'])], [.refresh "db"]⟩
    ∧ _handle_progress_bar 0 0 "db" (some (.failure ['x'])) true
        ⟨[("db", ⟨1, 0, 0, [], [], "{desc}...".toList⟩)],
          [("db", .failure ['x'])], [.refresh "db"]⟩
      = .ok ⟨[("db", ⟨1, 0, 0, [], [], "{desc}...".toList⟩)],
          [("db", .failure ['x']), ("db", .failure ['x'])],
          [.refresh "db", .refresh "db"]⟩
    ∧ ([("db", Status.failure ['x']), ("db", Status.failure ['x'])]
        ≠ [("db", Status.failure ['x'])]) :=
  ⟨rfl, rfl, by decide⟩

/-- Claim C9, amended: events arriving for a service whose widget already
reached a terminal state are processed exactly like any other event — the
handler never raises for a registered service, so the batch never crashes,
but the events are not ignored: a further failure event appends another
error record and a further in-progress event keeps mutating the widget. -/
theorem post_terminal_events_amended (twR twE : Int) (name : String) (m t : List Char)
    (c : Int) (s : Option Int) (st : HState) (w : Tqdm)
    (h : odGet st.bars name = some w) :
    (∃ st1, _handle_progress_bar twR twE name (some (.failure m)) true st = .ok st1
        ∧ st1.errors = st.errors ++ [(name, .failure m)])
    ∧ _handle_progress_bar twR twE name none true st = .ok st
    ∧ (∃ st2, _handle_progress_bar twR twE name (some (.inProgress t c s)) false st = .ok st2) := by
  obtain ⟨w3, heq, -⟩ := handle_inProgress_eq twR twE name t c s st w h
  exact ⟨⟨_, handle_failure_eq twR twE name m st w h, rfl⟩,
    handle_finished_none_eq twR twE name st, ⟨_, heq⟩⟩

/-- Claim C9, witness: a state whose db widget already received a failure
event (its record is in the error list). -/
theorem post_terminal_events_amended_witness :
    (∃ st1, _handle_progress_bar 0 0 "db" (some (.failure ['x'])) true
          ⟨[("db", ⟨1, 0, 0, [], [], "{desc}...".toList⟩)],
            [("db", .failure ['x'])], [.refresh "db"]⟩ = .ok st1
        ∧ st1.errors = HState.errors ⟨[("db", ⟨1, 0, 0, [], [], "{desc}...".toList⟩)],
            [("db", .failure ['x'])], [.refresh "db"]⟩ ++ [("db", .failure ['x'])])
    ∧ _handle_progress_bar 0 0 "db" none true
        ⟨[("db", ⟨1, 0, 0, [], [], "{desc}...".toList⟩)],
          [("db", .failure ['x'])], [.refresh "db"]⟩
      = .ok ⟨[("db", ⟨1, 0, 0, [], [], "{desc}...".toList⟩)],
          [("db", .failure ['x'])], [.refresh "db"]⟩
    ∧ (∃ st2, _handle_progress_bar 0 0 "db" (some (.inProgress ['y'] 1 none)) false
          ⟨[("db", ⟨1, 0, 0, [], [], "{desc}...".toList⟩)],
            [("db", .failure ['x'])], [.refresh "db"]⟩ = .ok st2) :=
  post_terminal_events_amended 0 0 "db" ['x'] ['y'] 1 none
    ⟨[("db", ⟨1, 0, 0, [], [], "{desc}...".toList⟩)],
      [("db", .failure ['x'])], [.refresh "db"]⟩
    ⟨1, 0, 0, [], [], "{desc}...".toList⟩ (by decide)

end Riptide

namespace Riptide

/-- Claim C10, counterexample: the claim quantifies over EVERY event for
an unregistered service, but a finished event with an absent payload for
an unregistered service never touches the widget dictionary: it is
silently ignored (the handler returns with the state unchanged) and the
whole start operation completes normally instead of aborting. -/
theorem unregistered_event_counterexample :
    _handle_progress_bar 0 0 "ghost" none true
        ⟨[("db", ⟨1, 0, 0, ['d', 'b'], ['.', '.', '.'], fmt0⟩)], [],
          [.echoLine startBanner, .echoBlank]⟩
      = .ok ⟨[("db", ⟨1, 0, 0, ['d', 'b'], ['.', '.', '.'], fmt0⟩)], [],
          [.echoLine startBanner, .echoBlank]⟩
    ∧ start_project 0 0 ["db"] [⟨"ghost", none, true⟩] none
      = .done ⟨[("db", ⟨1, 0, 0, ['d', 'b'], ['.', '.', '.'], fmt0⟩)], [],
            [.echoLine startBanner, .echoBlank]⟩
          [.echoLine startBanner, .echoBlank, .closeBar "db", .echoBlank] :=
  ⟨rfl, rfl⟩

/-- Claim C10, amended: an event for an unregistered service aborts the
whole operation whenever its handling addresses the widget — an
in-progress event or a finished failure event raises the KeyError of the
dictionary lookup, which the dispatcher loop catches and wraps into the
fatal operation error (for the failure event the error record has already
been appended when the lookup raises); only a finished event with an
absent payload never addresses the widget and is ignored instead. -/
theorem unregistered_event_amended (twR twE : Int) (services : List String)
    (name : String) (t m : List Char) (c : Int) (s : Option Int)
    (rest : List Event) (serr : Option Exn) (bars : List (String × Tqdm))
    (hb : _build_progress_bars twR services = .ok bars)
    (hn : odGet bars name = none) :
    start_project twR twE services (⟨name, some (.inProgress t c s), false⟩ :: rest) serr
      = .opError startErrMsg .keyError ⟨bars, [], [.echoLine startBanner, .echoBlank]⟩
    ∧ start_project twR twE services (⟨name, some (.failure m), true⟩ :: rest) serr
      = .opError startErrMsg .keyError
          ⟨bars, [(name, .failure m)], [.echoLine startBanner, .echoBlank]⟩
    ∧ _handle_progress_bar twR twE name none true
        ⟨bars, [], [.echoLine startBanner, .echoBlank]⟩
      = .ok ⟨bars, [], [.echoLine startBanner, .echoBlank]⟩ := by
  refine ⟨?_, ?_, handle_finished_none_eq twR twE name _⟩
  · simp [start_project, runLifecycle, hb, runEvents, _handle_progress_bar, hn]
  · simp [start_project, runLifecycle, hb, runEvents, _handle_progress_bar, hn]

/-- Claim C10, witness of the amended theorem: events for the
unregistered service ghost on a board built over db alone. -/
theorem unregistered_event_amended_witness :
    start_project 0 0 ["db"] [⟨"ghost", some (.inProgress ['t'] 1 none), false⟩] none
      = .opError startErrMsg .keyError
          ⟨[("db", ⟨1, 0, 0, ['d', 'b'], ['.', '.', '.'], fmt0⟩)], [],
            [.echoLine startBanner, .echoBlank]⟩
    ∧ start_project 0 0 ["db"] [⟨"ghost", some (.failure ['m']), true⟩] none
      = .opError startErrMsg .keyError
          ⟨[("db", ⟨1, 0, 0, ['d', 'b'], ['.', '.', '.'], fmt0⟩)],
            [("ghost", .failure ['m'])], [.echoLine startBanner, .echoBlank]⟩
    ∧ _handle_progress_bar 0 0 "ghost" none true
        ⟨[("db", ⟨1, 0, 0, ['d', 'b'], ['.', '.', '.'], fmt0⟩)], [],
          [.echoLine startBanner, .echoBlank]⟩
      = .ok ⟨[("db", ⟨1, 0, 0, ['d', 'b'], ['.', '.', '.'], fmt0⟩)], [],
          [.echoLine startBanner, .echoBlank]⟩ :=
  unregistered_event_amended 0 0 ["db"] "ghost" ['t'] ['m'] 1 none [] none
    [("db", ⟨1, 0, 0, ['d', 'b'], ['.', '.', '.'], fmt0⟩)] rfl rfl

end Riptide
